import Mathlib

/-!
Verification of the `http2test` HTTP-replay tool (`main.go`).

The program reads a line-oriented request file, parses it into a
`RequestData` (method, URL, headers, body), then loops `retry` times
sending the request and writing one timestamped report file per
iteration.

Embedding conventions:
* a text file is its list of lines (as produced by `bufio.Scanner`);
* Go `map[string]string` is an association list updated with
  last-write-wins semantics (`mapSet`);
* I/O and the network are oracles passed in as functions: the request
  constructor (`http.NewRequest`), the transport (`client.Do`), the
  wall clock (`time.Now().Unix()`), and report-write failures;
* fallible functions return `Except String`.
-/

/-- The list before and after the first occurrence of `sep` in a
character list, or `none` when `sep` does not occur.  This is the
splitting done by Go's `strings.SplitN(s, sep, 2)`. -/
def splitAtFirstSub (sep : List Char) : List Char → Option (List Char × List Char)
  | [] => if sep = [] then some ([], []) else none
  | c :: cs =>
    if sep.isPrefixOf (c :: cs) then some ([], (c :: cs).drop sep.length)
    else
      match splitAtFirstSub sep cs with
      | some (pre, post) => some (c :: pre, post)
      | none => none

/-- Go `strings.SplitN(s, sep, 2)`: a two-element list when `sep`
occurs in `s` (split at the first occurrence), else `[s]`. -/
def splitN2 (s sep : String) : List String :=
  match splitAtFirstSub sep.data s.data with
  | some (pre, post) => [String.mk pre, String.mk post]
  | none => [s]

/-- Structure `RequestData` from `main.go`: the parsed request information. -/
structure RequestData where
  Method : String
  URL : String
  Headers : List (String × String)
  Body : String
deriving Repr, DecidableEq

/-- Go map assignment `m[k] = v` on the association-list model:
overwrite the value of an existing key, otherwise append the pair
(last write wins). -/
def mapSet (m : List (String × String)) (k v : String) : List (String × String) :=
  if m.any (fun p => p.1 = k) then m.map (fun p => if p.1 = k then (k, v) else p)
  else m ++ [(k, v)]

/-- The header-reading loop of `ReadHTTPFile` (`main.go` lines 53-63):
consume lines until the first empty line, splitting each on the first
`": "` and skipping lines without it; returns the headers map and the
lines left for the body section. -/
def parseHeaderLoop : List String → List (String × String) → List (String × String) × List String
  | [], hs => (hs, [])
  | line :: rest, hs =>
    if line = "" then (hs, rest)
    else
      match splitN2 line ": " with
      | [k, v] => parseHeaderLoop rest (mapSet hs k v)
      | _ => parseHeaderLoop rest hs

/-- Function `ReadHTTPFile` from `main.go` on the file's list of lines: the
first line (when present) must split on the first space into method
and URL, then headers until the first empty line, then the remaining
lines joined with `"\n"` as the body. -/
def ReadHTTPFile (lines : List String) : Except String RequestData :=
  match lines with
  | [] => .ok { Method := "", URL := "", Headers := [], Body := "" }
  | first :: rest =>
    match splitN2 first " " with
    | [m, u] =>
      let hsRest := parseHeaderLoop rest []
      .ok { Method := m, URL := u, Headers := hsRest.1,
            Body := String.intercalate "\n" hsRest.2 }
    | _ => .error "invalid request line"

/-- The outbound request built by `SendRequest`: `http.NewRequest`'s
result with the parsed headers set on it. -/
structure HTTPRequest where
  method : String
  url : String
  headers : List (String × String)
  body : String
deriving Repr, DecidableEq

/-- The relevant parts of Go's `*http.Response`: status line (e.g.
`"200 OK"`), status code, and the (fully drained) body. -/
structure HTTPResponse where
  status : String
  statusCode : Int
  body : String
deriving Repr, DecidableEq

set_option linter.unusedVariables false in
/-- Function `SendRequest` from `main.go`: build the request from the parsed
data (`newRequest` is the `http.NewRequest` oracle, which may fail on
a malformed method or URL), set each header verbatim, and hand the
request to the transport oracle `doRequest` (`client.Do`).  The
`retryCount` and `sleepSec` parameters are received but never used,
exactly as in the source. -/
def SendRequest (reqData : RequestData) (retryCount sleepSec : Int)
    (newRequest : String → String → String → Except String HTTPRequest)
    (doRequest : HTTPRequest → Except String HTTPResponse) :
    Except String HTTPResponse :=
  match newRequest reqData.Method reqData.URL reqData.Body with
  | .error e => .error e
  | .ok req =>
    let req := { req with
      headers := reqData.Headers.foldl (fun h p => mapSet h p.1 p.2) req.headers }
    doRequest req

/-- The report file name built by `GenerateReport` (`main.go` line
105): `outputPath + "|" + unixSeconds + "-status:" + statusCode +
".txt"`. -/
def reportFileName (outputPath : String) (unixSeconds : Int) (statusCode : Int) : String :=
  outputPath ++ "|" ++ toString unixSeconds ++ "-status:" ++ toString statusCode ++ ".txt"

/-- The header block of the report: one `name: value` line per header,
in the order the headers map is iterated. -/
def headerLines (hs : List (String × String)) : String :=
  String.join (hs.map (fun p => p.1 ++ ": " ++ p.2 ++ "\n"))

/-- The text written by `GenerateReport` (`main.go` lines 111-141):
the successive `WriteString` payloads concatenated. -/
def reportContent (reqData : RequestData) (response : HTTPResponse) : String :=
  "Request Method: " ++ reqData.Method ++ "\nRequest URL: " ++ reqData.URL ++ "\n\n" ++
  "Request Headers:\n" ++
  headerLines reqData.Headers ++
  "\nRequest Body:\n" ++ reqData.Body ++ "\n\n" ++
  "Response Status: " ++ response.status ++ "\nResponse Body:\n" ++ response.body ++ "\n"

/-- A report file on disk: its name and its full content. -/
structure Report where
  name : String
  content : String
deriving Repr, DecidableEq

/-- Observable trace of one run of `main`: the iteration indices at
which `SendRequest` was invoked, the report files written (paired with
the iteration that wrote them), the sleeps performed, and the error
message printed when the run aborted (`none` for a clean run). -/
structure RunTrace where
  sends : List Nat
  reports : List (Nat × Report)
  sleeps : List Int
  printed : Option String
deriving Repr, DecidableEq

/-- Default `defaultRetry` applied by `main` (`main.go` lines 162-164): a zero
`-retry` flag is replaced by `defaultRetry = 1`. -/
def normalizeRetry (retry : Int) : Int :=
  if retry = 0 then 1 else retry

/-- Default `defaultSleep` applied by `main` (`main.go` lines 166-168): a zero
`-sleep` flag is replaced by `defaultSleep = 0`. -/
def normalizeSleep (sleep : Int) : Int :=
  if sleep = 0 then 0 else sleep

/-- The retry loop of `main` (`main.go` lines 177-193), running at
iteration index `i` with `fuel` iterations left.  Each iteration sends
the request (`send i`); on error the run aborts with the error printed.
Otherwise `GenerateReport` runs: `writeErr i` is its I/O outcome, and
on success the report file (named with the clock value read at write
time) is recorded; then the iteration sleeps.  Any failure stops the
loop immediately with nothing further executed. -/
def runLoop (reqData : RequestData) (output : String) (sleepSec : Int)
    (send : Nat → Except String HTTPResponse)
    (clock : Nat → Int) (writeErr : Nat → Option String) :
    Nat → Nat → RunTrace
  | _, 0 => { sends := [], reports := [], sleeps := [], printed := none }
  | i, fuel + 1 =>
    match send i with
    | .error e => { sends := [i], reports := [], sleeps := [], printed := some e }
    | .ok resp =>
      match writeErr i with
      | some e => { sends := [i], reports := [], sleeps := [], printed := some e }
      | none =>
        let rep : Report :=
          { name := reportFileName output (clock i) resp.statusCode,
            content := reportContent reqData resp }
        let t := runLoop reqData output sleepSec send clock writeErr (i + 1) fuel
        { sends := i :: t.sends, reports := (i, rep) :: t.reports,
          sleeps := sleepSec :: t.sleeps, printed := t.printed }

/-- Function `main` from `main.go` after flag parsing, for non-empty `-source`
and `-output` values: apply the zero-value defaults to `retry` and
`sleep`, parse the request file once, and on success run the retry
loop from iteration 0; the loop body calls
`SendRequest(reqData, *retry, *sleep)` with the transport oracle
`net i` of the current iteration.  A parse failure prints the error
and returns before any network activity. -/
def runMain (lines : List String) (output : String) (retry sleep : Int)
    (newRequest : String → String → String → Except String HTTPRequest)
    (net : Nat → HTTPRequest → Except String HTTPResponse)
    (clock : Nat → Int) (writeErr : Nat → Option String) : RunTrace :=
  let retryN := normalizeRetry retry
  let sleepN := normalizeSleep sleep
  match ReadHTTPFile lines with
  | .error e => { sends := [], reports := [], sleeps := [], printed := some e }
  | .ok reqData =>
    runLoop reqData output sleepN
      (fun i => SendRequest reqData retryN sleepN newRequest (net i))
      clock writeErr 0 retryN.toNat

/-- The header section of a file after its request line, as the spec
describes it: the lines up to (excluding) the first empty line. -/
def headerSection (tail : List String) : List String :=
  tail.takeWhile (fun l => !(l == ""))

/-- One step of the spec's header fold: a line containing `": "` is
split at its first occurrence into name and value and inserted
(last write wins); a line lacking `": "` is skipped. -/
def specHeaderStep (m : List (String × String)) (line : String) : List (String × String) :=
  match splitAtFirstSub (": ".data) line.data with
  | some kv => mapSet m (String.mk kv.1) (String.mk kv.2)
  | none => m

/-- The spec's description of the headers mapping (for comparison with
the parser): fold `specHeaderStep` over the header section. -/
def specHeaders (tail : List String) : List (String × String) :=
  (headerSection tail).foldl specHeaderStep []

/-- The body section of a file after its request line, as the spec
describes it: the lines after the first empty line, empty when there
is no empty line or it is the last line. -/
def bodySection (tail : List String) : List String :=
  (tail.dropWhile (fun l => !(l == ""))).drop 1

/-! ### Helper lemmas -/

theorem string_mk_data (s : String) : String.mk s.data = s := rfl

theorem string_append_assoc (a b c : String) : a ++ b ++ c = a ++ (b ++ c) :=
  congrArg String.mk (List.append_assoc a.data b.data c.data)

example : splitN2 "GET http://x/y z" " " = ["GET", "http://x/y z"] := by decide
example : splitN2 "abc" " " = ["abc"] := by decide
example : ReadHTTPFile ["GET http://x/y", "A: 1", "B: 2", "", "hello", "world"] =
    .ok { Method := "GET", URL := "http://x/y", Headers := [("A", "1"), ("B", "2")],
          Body := "hello\nworld" } := rfl
example : ReadHTTPFile ["nospace"] = .error "invalid request line" := rfl
example : ReadHTTPFile [] = .ok { Method := "", URL := "", Headers := [], Body := "" } := rfl

/-! ### Claim theorems -/

/-- C10: parsing a completely empty input file (zero lines) succeeds
with empty method, empty URL, empty headers mapping and empty body;
it does not fail with the malformed-request-line error, because the
first-line check only runs when a first line exists. -/
theorem readHTTPFile_empty_file_ok :
    ReadHTTPFile [] = .ok { Method := "", URL := "", Headers := [], Body := "" } := rfl

/-- C9: `SendRequest` ignores its `retryCount` and `sleepSec`
arguments: for any two pairs of values, it constructs the same request
and returns the same result. -/
theorem sendRequest_independent_of_retry_sleep (reqData : RequestData)
    (r1 s1 r2 s2 : Int)
    (newRequest : String → String → String → Except String HTTPRequest)
    (doRequest : HTTPRequest → Except String HTTPResponse) :
    SendRequest reqData r1 s1 newRequest doRequest =
      SendRequest reqData r2 s2 newRequest doRequest := rfl

/-- C5: the report text decomposes into a `Request Body:` section whose
text is the parsed body byte-for-byte, followed by the response status
line and a `Response Body:` section whose text is the fully drained
response body. -/
theorem report_body_round_trip (reqData : RequestData) (response : HTTPResponse) :
    reportContent reqData response =
      ("Request Method: " ++ reqData.Method ++ "\nRequest URL: " ++ reqData.URL ++ "\n\n" ++
        "Request Headers:\n" ++ headerLines reqData.Headers) ++
      ("\nRequest Body:\n" ++ reqData.Body ++ "\n\n") ++
      ("Response Status: " ++ response.status ++ "\nResponse Body:\n" ++ response.body ++ "\n") := by
  simp only [reportContent, string_append_assoc]

/-- C4: a run with CLI values `retry = 0, sleep = 0` behaves
identically to a run with `retry = 1, sleep = 0`: the zero value of
each flag is replaced by its default (1 for retry, 0 for sleep)
before the loop starts. -/
theorem retry_zero_equals_retry_one (lines : List String) (output : String)
    (newRequest : String → String → String → Except String HTTPRequest)
    (net : Nat → HTTPRequest → Except String HTTPResponse)
    (clock : Nat → Int) (writeErr : Nat → Option String) :
    runMain lines output 0 0 newRequest net clock writeErr =
      runMain lines output 1 0 newRequest net clock writeErr ∧
    normalizeRetry 0 = 1 ∧ normalizeSleep 0 = 0 := by
  refine ⟨rfl, rfl, rfl⟩

/-- Splitting with `splitAtFirstSub` on a one-character separator finds nothing
exactly when the character is absent. -/
theorem splitAtFirstSub_single_eq_none_iff (c : Char) (cs : List Char) :
    splitAtFirstSub [c] cs = none ↔ c ∉ cs := by
  induction cs with
  | nil => simp [splitAtFirstSub]
  | cons d ds ih =>
    rw [splitAtFirstSub]
    by_cases h : c = d
    · subst h
      simp [List.isPrefixOf]
    · have hp : [c].isPrefixOf (d :: ds) = false := by
        simp [List.isPrefixOf, h]
      rw [hp]
      simp only [Bool.false_eq_true, if_false]
      cases hrec : splitAtFirstSub [c] ds with
      | none =>
        simp only [hrec, true_iff] at ih ⊢
        simp [ih, h]
      | some pr =>
        obtain ⟨p1, p2⟩ := pr
        have hmem : c ∈ ds := by
          by_contra hc
          rw [ih.mpr hc] at hrec
          exact Option.noConfusion hrec
        simp [hmem]

/-- Splitting with `splitAtFirstSub` on a one-character separator splits at the first
occurrence of the character. -/
theorem splitAtFirstSub_single_append (c : Char) (pre post : List Char)
    (hpre : c ∉ pre) :
    splitAtFirstSub [c] (pre ++ c :: post) = some (pre, post) := by
  induction pre with
  | nil =>
    rw [List.nil_append, splitAtFirstSub]
    simp [List.isPrefixOf]
  | cons d ds ih =>
    have hd : c ≠ d := fun h => hpre (h ▸ List.mem_cons_self d ds)
    have hds : c ∉ ds := fun h => hpre (List.mem_cons_of_mem d h)
    rw [List.cons_append, splitAtFirstSub]
    have hp : [c].isPrefixOf (d :: (ds ++ c :: post)) = false := by
      simp [List.isPrefixOf, hd]
    rw [hp]
    simp only [Bool.false_eq_true, if_false, ih hds]

/-- When the first line contains a space, `ReadHTTPFile` succeeds and
splits the first line at the first space. -/
theorem readHTTPFile_cons_of_space (first : String) (rest : List String)
    (pre post : List Char)
    (h : splitAtFirstSub [' '] first.data = some (pre, post)) :
    ReadHTTPFile (first :: rest) =
      .ok { Method := String.mk pre, URL := String.mk post,
            Headers := (parseHeaderLoop rest []).1,
            Body := String.intercalate "\n" (parseHeaderLoop rest []).2 } := by
  have hdata : (" " : String).data = [' '] := rfl
  simp only [ReadHTTPFile, splitN2, hdata, h]

/-- When the first line contains no space, `ReadHTTPFile` fails with
the request-line error. -/
theorem readHTTPFile_cons_of_no_space (first : String) (rest : List String)
    (h : ' ' ∉ first.data) :
    ReadHTTPFile (first :: rest) = .error "invalid request line" := by
  have hdata : (" " : String).data = [' '] := rfl
  have hnone : splitAtFirstSub [' '] first.data = none :=
    (splitAtFirstSub_single_eq_none_iff ' ' first.data).mpr h
  simp only [ReadHTTPFile, splitN2, hdata, hnone]

/-- C1: parsing fails exactly when there is a first line that does not
split into two parts around a space; a first line with no space fails
with the `invalid request line` error; and a run whose parse failed
invokes no send and writes no report (no network activity). -/
theorem parse_fails_iff_first_line_has_no_space (lines : List String) :
    ((∃ e, ReadHTTPFile lines = .error e) ↔
      ∃ first rest, lines = first :: rest ∧ ' ' ∉ first.data) ∧
    (∀ first rest, lines = first :: rest → ' ' ∉ first.data →
      ReadHTTPFile lines = .error "invalid request line") ∧
    (∀ (output : String) (retry sleep : Int)
      (newRequest : String → String → String → Except String HTTPRequest)
      (net : Nat → HTTPRequest → Except String HTTPResponse)
      (clock : Nat → Int) (writeErr : Nat → Option String),
      (∃ e, ReadHTTPFile lines = .error e) →
      (runMain lines output retry sleep newRequest net clock writeErr).sends = [] ∧
      (runMain lines output retry sleep newRequest net clock writeErr).reports = []) := by
  refine ⟨?_, ?_, ?_⟩
  · constructor
    · rintro ⟨e, he⟩
      cases lines with
      | nil => exact absurd he (by simp [ReadHTTPFile])
      | cons first rest =>
        by_cases hsp : ' ' ∈ first.data
        · exfalso
          cases hpr : splitAtFirstSub [' '] first.data with
          | none =>
            exact absurd ((splitAtFirstSub_single_eq_none_iff ' ' first.data).mp hpr) (by simp [hsp])
          | some pr =>
            rw [readHTTPFile_cons_of_space first rest pr.1 pr.2 (by rw [hpr])] at he
            exact Except.noConfusion he
        · exact ⟨first, rest, rfl, hsp⟩
    · rintro ⟨first, rest, hl, hsp⟩
      subst hl
      exact ⟨"invalid request line", readHTTPFile_cons_of_no_space first rest hsp⟩
  · rintro first rest hl hsp
    subst hl
    exact readHTTPFile_cons_of_no_space first rest hsp
  · rintro output retry sleep newRequest net clock writeErr ⟨e, he⟩
    simp [runMain, he]

/-- Witness for C1 at the one-line file `["nospace"]`. -/
theorem parse_fails_iff_first_line_has_no_space_witness :
    ReadHTTPFile ["nospace"] = .error "invalid request line" :=
  (parse_fails_iff_first_line_has_no_space ["nospace"]).2.1 "nospace" [] rfl (by decide)

/-- C7: when the first line is `method ++ " " ++ remainder` with no
space in `method`, the parsed method is the text before the first
space and the parsed URL is the entire remainder taken verbatim —
including any further spaces it contains. -/
theorem parse_first_line_method_url (m u : String) (rest : List String)
    (hm : ' ' ∉ m.data) :
    ∃ d, ReadHTTPFile ((m ++ " " ++ u) :: rest) = .ok d ∧ d.Method = m ∧ d.URL = u := by
  have hdata : (m ++ " " ++ u).data = m.data ++ ' ' :: u.data := by
    show m.data ++ (" " : String).data ++ u.data = m.data ++ ' ' :: u.data
    simp
  have hsplit : splitAtFirstSub [' '] ((m ++ " " ++ u).data) = some (m.data, u.data) := by
    rw [hdata]
    exact splitAtFirstSub_single_append ' ' m.data u.data hm
  refine ⟨_, readHTTPFile_cons_of_space _ rest m.data u.data hsplit, ?_, ?_⟩
  · exact string_mk_data m
  · exact string_mk_data u

/-- Witness for C7: a first line of three space-separated tokens puts
everything after the first token into the URL. -/
theorem parse_first_line_method_url_witness :
    ∃ d, ReadHTTPFile (("GET" ++ " " ++ "http://x/y?q=a b") :: []) = .ok d ∧
      d.Method = "GET" ∧ d.URL = "http://x/y?q=a b" :=
  parse_first_line_method_url "GET" "http://x/y?q=a b" [] (by decide)

/-- The headers accumulated by the parser's loop are the spec's fold
over the header section, for any starting map. -/
theorem parseHeaderLoop_fst (ls : List String) : ∀ hs,
    (parseHeaderLoop ls hs).1 = (headerSection ls).foldl specHeaderStep hs := by
  induction ls with
  | nil => intro hs; simp [parseHeaderLoop, headerSection]
  | cons line rest ih =>
    intro hs
    by_cases hline : line = ""
    · simp [parseHeaderLoop, headerSection, hline]
    · have h2 : headerSection (line :: rest) = line :: headerSection rest := by
        simp [headerSection, hline]
      cases hsp : splitAtFirstSub (": ".data) line.data with
      | some kv =>
        obtain ⟨k1, k2⟩ := kv
        have h1 : parseHeaderLoop (line :: rest) hs =
            parseHeaderLoop rest (mapSet hs (String.mk k1) (String.mk k2)) := by
          simp [parseHeaderLoop, hline, splitN2, hsp]
        rw [h1, ih, h2, List.foldl_cons]
        congr 1
        simp [specHeaderStep, hsp]
      | none =>
        have h1 : parseHeaderLoop (line :: rest) hs = parseHeaderLoop rest hs := by
          simp [parseHeaderLoop, hline, splitN2, hsp]
        rw [h1, ih, h2, List.foldl_cons]
        congr 1
        simp [specHeaderStep, hsp]

/-- The lines left over by the parser's header loop are the spec's
body section, for any starting map. -/
theorem parseHeaderLoop_snd (ls : List String) : ∀ hs,
    (parseHeaderLoop ls hs).2 = bodySection ls := by
  induction ls with
  | nil => intro hs; simp [parseHeaderLoop, bodySection]
  | cons line rest ih =>
    intro hs
    by_cases hline : line = ""
    · simp [parseHeaderLoop, bodySection, hline]
    · have hbody : bodySection (line :: rest) = bodySection rest := by
        simp [bodySection, List.dropWhile_cons, hline]
      cases hsp : splitAtFirstSub (": ".data) line.data with
      | some kv =>
        obtain ⟨k1, k2⟩ := kv
        have h1 : parseHeaderLoop (line :: rest) hs =
            parseHeaderLoop rest (mapSet hs (String.mk k1) (String.mk k2)) := by
          simp [parseHeaderLoop, hline, splitN2, hsp]
        rw [h1, ih, hbody]
      | none =>
        have h1 : parseHeaderLoop (line :: rest) hs = parseHeaderLoop rest hs := by
          simp [parseHeaderLoop, hline, splitN2, hsp]
        rw [h1, ih, hbody]

/-- C6: for every file whose first line parses, the headers of the
parse result equal the spec's fold over the lines after the first line
up to the first empty line: lines with `": "` are inserted (name
before the first `": "`, value after, last write wins), lines without
`": "` are silently skipped. -/
theorem parse_headers_eq_spec_fold (first : String) (rest : List String) (d : RequestData)
    (h : ReadHTTPFile (first :: rest) = .ok d) :
    d.Headers = specHeaders rest := by
  cases hpr : splitAtFirstSub [' '] first.data with
  | none =>
    rw [readHTTPFile_cons_of_no_space first rest
      ((splitAtFirstSub_single_eq_none_iff ' ' first.data).mp hpr)] at h
    exact Except.noConfusion h
  | some pr =>
    obtain ⟨p1, p2⟩ := pr
    rw [readHTTPFile_cons_of_space first rest p1 p2 hpr] at h
    injection h with hd
    subst hd
    exact parseHeaderLoop_fst rest []

/-- Witness for C6: duplicate header names keep the last write, a
line lacking `": "` is skipped, and the fold matches the parser. -/
theorem parse_headers_eq_spec_fold_witness :
    ReadHTTPFile ["GET u", "A: 1", "A: 2", "garbage", "", "x"] =
      .ok { Method := "GET", URL := "u", Headers := [("A", "2")], Body := "x" } ∧
    ({ Method := "GET", URL := "u", Headers := [("A", "2")], Body := "x" } : RequestData).Headers =
      specHeaders ["A: 1", "A: 2", "garbage", "", "x"] :=
  ⟨rfl, parse_headers_eq_spec_fold "GET u" ["A: 1", "A: 2", "garbage", "", "x"] _ rfl⟩

/-- C8: the parsed body is the lines after the first empty line of the
tail joined with `"\n"`; when no empty line exists (or it is the last
line) the body is the empty string, and parsing has not failed. -/
theorem parse_body_after_first_blank (lines : List String) (d : RequestData)
    (h : ReadHTTPFile lines = .ok d) :
    d.Body = String.intercalate "\n" (bodySection lines.tail) ∧
    ((∀ l ∈ lines.tail, l ≠ "") → d.Body = "") := by
  have hmain : d.Body = String.intercalate "\n" (bodySection lines.tail) := by
    cases lines with
    | nil =>
      have h0 : ReadHTTPFile ([] : List String) =
          .ok { Method := "", URL := "", Headers := [], Body := "" } := rfl
      rw [h0] at h
      injection h with hd
      subst hd
      rfl
    | cons first rest =>
      cases hpr : splitAtFirstSub [' '] first.data with
      | none =>
        rw [readHTTPFile_cons_of_no_space first rest
          ((splitAtFirstSub_single_eq_none_iff ' ' first.data).mp hpr)] at h
        exact Except.noConfusion h
      | some pr =>
        obtain ⟨p1, p2⟩ := pr
        rw [readHTTPFile_cons_of_space first rest p1 p2 hpr] at h
        injection h with hd
        subst hd
        show String.intercalate "\n" (parseHeaderLoop rest []).2 =
          String.intercalate "\n" (bodySection rest)
        rw [parseHeaderLoop_snd rest []]
  refine ⟨hmain, fun hall => ?_⟩
  have hnil : lines.tail.dropWhile (fun l => !(l == "")) = [] := by
    rw [List.dropWhile_eq_nil_iff]
    intro x hx
    simp [hall x hx]
  have hbs : bodySection lines.tail = [] := by
    simp [bodySection, hnil]
  rw [hmain, hbs]
  rfl

/-- Witness for C8: a file that ends before any blank line parses with
an empty body. -/
theorem parse_body_after_first_blank_witness :
    ReadHTTPFile ["POST u", "X: 1"] =
      .ok { Method := "POST", URL := "u", Headers := [("X", "1")], Body := "" } ∧
    ({ Method := "POST", URL := "u", Headers := [("X", "1")], Body := "" } : RequestData).Body = "" :=
  ⟨rfl, (parse_body_after_first_blank ["POST u", "X: 1"] _ rfl).2 (by decide)⟩

/-- A full run of the loop in which every iteration's send and report
succeed: one send, one report (named with the clock read at write
time) and one sleep per iteration, and no error printed. -/
theorem runLoop_all_ok (reqData : RequestData) (output : String) (sleepSec : Int)
    (send : Nat → Except String HTTPResponse)
    (clock : Nat → Int) (writeErr : Nat → Option String)
    (resp : Nat → HTTPResponse) :
    ∀ (fuel i : Nat),
      (∀ j, j < fuel → send (i + j) = .ok (resp (i + j)) ∧ writeErr (i + j) = none) →
      runLoop reqData output sleepSec send clock writeErr i fuel =
        { sends := List.range' i fuel,
          reports := (List.range' i fuel).map (fun n =>
            (n, { name := reportFileName output (clock n) (resp n).statusCode,
                  content := reportContent reqData (resp n) })),
          sleeps := List.replicate fuel sleepSec,
          printed := none } := by
  intro fuel
  induction fuel with
  | zero => intro i h; rfl
  | succ f ih =>
    intro i h
    have h0 := h 0 (Nat.succ_pos f)
    rw [Nat.add_zero] at h0
    have hsh : ∀ j, j < f →
        send ((i + 1) + j) = .ok (resp ((i + 1) + j)) ∧ writeErr ((i + 1) + j) = none := by
      intro j hj
      have hh := h (j + 1) (Nat.succ_lt_succ hj)
      rwa [show i + (j + 1) = (i + 1) + j by omega] at hh
    simp only [runLoop, h0.1, h0.2]
    rw [ih (i + 1) hsh, List.range'_succ i f 1, List.map_cons, List.replicate_succ]

/-- A run of the loop whose first failure is at relative iteration `k`
(either the send errors, or the send succeeds and the report write
errors): the error is printed, sends stop at `k`, and only the `k`
earlier iterations produced reports. -/
theorem runLoop_abort (reqData : RequestData) (output : String) (sleepSec : Int)
    (send : Nat → Except String HTTPResponse)
    (clock : Nat → Int) (writeErr : Nat → Option String)
    (resp : Nat → HTTPResponse) (e : String) :
    ∀ (k fuel i : Nat), k < fuel →
      (∀ j, j < k → send (i + j) = .ok (resp (i + j)) ∧ writeErr (i + j) = none) →
      (send (i + k) = .error e ∨
        (send (i + k) = .ok (resp (i + k)) ∧ writeErr (i + k) = some e)) →
      runLoop reqData output sleepSec send clock writeErr i fuel =
        { sends := List.range' i (k + 1),
          reports := (List.range' i k).map (fun n =>
            (n, { name := reportFileName output (clock n) (resp n).statusCode,
                  content := reportContent reqData (resp n) })),
          sleeps := List.replicate k sleepSec,
          printed := some e } := by
  intro k
  induction k with
  | zero =>
    intro fuel i hk hok hfail
    obtain ⟨f, rfl⟩ : ∃ f, fuel = f + 1 := ⟨fuel - 1, by omega⟩
    rw [Nat.add_zero] at hfail
    rcases hfail with hf | ⟨hsend, hwe⟩
    · simp [runLoop, hf, List.range'_succ]
    · simp [runLoop, hsend, hwe, List.range'_succ]
  | succ k ih =>
    intro fuel i hk hok hfail
    obtain ⟨f, rfl⟩ : ∃ f, fuel = f + 1 := ⟨fuel - 1, by omega⟩
    have h0 := hok 0 (Nat.succ_pos k)
    rw [Nat.add_zero] at h0
    have hsh : ∀ j, j < k →
        send ((i + 1) + j) = .ok (resp ((i + 1) + j)) ∧ writeErr ((i + 1) + j) = none := by
      intro j hj
      have hh := hok (j + 1) (Nat.succ_lt_succ hj)
      rwa [show i + (j + 1) = (i + 1) + j by omega] at hh
    have hfl : send ((i + 1) + k) = .error e ∨
        (send ((i + 1) + k) = .ok (resp ((i + 1) + k)) ∧ writeErr ((i + 1) + k) = some e) := by
      rwa [show i + (k + 1) = (i + 1) + k by omega] at hfail
    simp only [runLoop, h0.1, h0.2]
    rw [ih f (i + 1) (by omega) hsh hfl, List.range'_succ i (k + 1) 1,
      List.range'_succ i k 1, List.map_cons, List.replicate_succ]

/-- C3: when parsing succeeds and every iteration's send and report
write succeed, the driver performs exactly `retryCount` (the
normalized `-retry` value) iterations and writes exactly `retryCount`
report files, the file of iteration `n` being named
`reportFileName output (clock n) statusCode` — the
`<prefix>|<unixSeconds>-status:<code>.txt` pattern with the timestamp
read at write time. -/
theorem run_success_writes_retry_reports
    (lines : List String) (output : String) (retry sleep : Int)
    (newRequest : String → String → String → Except String HTTPRequest)
    (net : Nat → HTTPRequest → Except String HTTPResponse)
    (clock : Nat → Int) (writeErr : Nat → Option String)
    (reqData : RequestData) (resp : Nat → HTTPResponse)
    (hparse : ReadHTTPFile lines = .ok reqData)
    (hok : ∀ j, j < (normalizeRetry retry).toNat →
      SendRequest reqData (normalizeRetry retry) (normalizeSleep sleep) newRequest (net j) =
        .ok (resp j) ∧ writeErr j = none) :
    runMain lines output retry sleep newRequest net clock writeErr =
      { sends := List.range (normalizeRetry retry).toNat,
        reports := (List.range (normalizeRetry retry).toNat).map (fun n =>
          (n, { name := reportFileName output (clock n) (resp n).statusCode,
                content := reportContent reqData (resp n) })),
        sleeps := List.replicate (normalizeRetry retry).toNat (normalizeSleep sleep),
        printed := none } := by
  simp only [runMain, hparse]
  refine Eq.trans (runLoop_all_ok reqData output (normalizeSleep sleep)
    (fun i => SendRequest reqData (normalizeRetry retry) (normalizeSleep sleep) newRequest (net i))
    clock writeErr resp (normalizeRetry retry).toNat 0 ?_) ?_
  · intro j hj
    rw [Nat.zero_add]
    exact hok j hj
  · rw [List.range_eq_range']

/-- Witness for C3: `retry = 3, sleep = 0` against a transport that
always succeeds writes exactly 3 reports and prints no error. -/
theorem run_success_writes_retry_reports_witness :
    runMain ["GET http://x"] "out" 3 0
      (fun m u b => .ok { method := m, url := u, headers := [], body := b })
      (fun _ _ => .ok { status := "200 OK", statusCode := 200, body := "hi" })
      (fun _ => (100 : Int)) (fun _ => none) =
      { sends := List.range (normalizeRetry 3).toNat,
        reports := (List.range (normalizeRetry 3).toNat).map (fun n =>
          (n, { name := reportFileName "out" 100 200,
                content := reportContent
                  { Method := "GET", URL := "http://x", Headers := [], Body := "" }
                  { status := "200 OK", statusCode := 200, body := "hi" } })),
        sleeps := List.replicate (normalizeRetry 3).toNat (normalizeSleep 0),
        printed := none } :=
  run_success_writes_retry_reports ["GET http://x"] "out" 3 0
    (fun m u b => .ok { method := m, url := u, headers := [], body := b })
    (fun _ _ => .ok { status := "200 OK", statusCode := 200, body := "hi" })
    (fun _ => (100 : Int)) (fun _ => none)
    { Method := "GET", URL := "http://x", Headers := [], Body := "" }
    (fun _ => { status := "200 OK", statusCode := 200, body := "hi" })
    rfl (fun _ _ => ⟨rfl, rfl⟩)

/-- C2: when the first failure of the run happens at iteration `k` —
the send errors there, or the send succeeds and the report write
errors — the driver prints that error and terminates: `SendRequest`
runs only on iterations `0..k`, no report is written for iteration
`k`, and iterations after `k` never execute. -/
theorem run_aborts_on_first_failure
    (lines : List String) (output : String) (retry sleep : Int)
    (newRequest : String → String → String → Except String HTTPRequest)
    (net : Nat → HTTPRequest → Except String HTTPResponse)
    (clock : Nat → Int) (writeErr : Nat → Option String)
    (reqData : RequestData) (resp : Nat → HTTPResponse) (e : String) (k : Nat)
    (hparse : ReadHTTPFile lines = .ok reqData)
    (hk : k < (normalizeRetry retry).toNat)
    (hok : ∀ j, j < k →
      SendRequest reqData (normalizeRetry retry) (normalizeSleep sleep) newRequest (net j) =
        .ok (resp j) ∧ writeErr j = none)
    (hfail : SendRequest reqData (normalizeRetry retry) (normalizeSleep sleep) newRequest (net k) =
        .error e ∨
      (SendRequest reqData (normalizeRetry retry) (normalizeSleep sleep) newRequest (net k) =
        .ok (resp k) ∧ writeErr k = some e)) :
    runMain lines output retry sleep newRequest net clock writeErr =
      { sends := List.range (k + 1),
        reports := (List.range k).map (fun n =>
          (n, { name := reportFileName output (clock n) (resp n).statusCode,
                content := reportContent reqData (resp n) })),
        sleeps := List.replicate k (normalizeSleep sleep),
        printed := some e } := by
  simp only [runMain, hparse]
  refine Eq.trans (runLoop_abort reqData output (normalizeSleep sleep)
    (fun i => SendRequest reqData (normalizeRetry retry) (normalizeSleep sleep) newRequest (net i))
    clock writeErr resp e k (normalizeRetry retry).toNat 0 hk ?_ ?_) ?_
  · intro j hj
    rw [Nat.zero_add]
    exact hok j hj
  · rw [Nat.zero_add]
    exact hfail
  · rw [List.range_eq_range', List.range_eq_range']

/-- Witness for C2: with `retry = 5`, a network failure on iteration 2
(index 1) leaves one report (for iteration 0), sends only on
iterations 0 and 1, and prints the error. -/
theorem run_aborts_on_first_failure_witness :
    runMain ["GET http://x"] "out" 5 0
      (fun m u b => .ok { method := m, url := u, headers := [], body := b })
      (fun i _ => if i = 1 then .error "connection refused"
        else .ok { status := "200 OK", statusCode := 200, body := "hi" })
      (fun _ => (100 : Int)) (fun _ => none) =
      { sends := List.range (1 + 1),
        reports := (List.range 1).map (fun n =>
          (n, { name := reportFileName "out" 100 200,
                content := reportContent
                  { Method := "GET", URL := "http://x", Headers := [], Body := "" }
                  { status := "200 OK", statusCode := 200, body := "hi" } })),
        sleeps := List.replicate 1 (normalizeSleep 0),
        printed := some "connection refused" } :=
  run_aborts_on_first_failure ["GET http://x"] "out" 5 0
    (fun m u b => .ok { method := m, url := u, headers := [], body := b })
    (fun i _ => if i = 1 then .error "connection refused"
      else .ok { status := "200 OK", statusCode := 200, body := "hi" })
    (fun _ => (100 : Int)) (fun _ => none)
    { Method := "GET", URL := "http://x", Headers := [], Body := "" }
    (fun _ => { status := "200 OK", statusCode := 200, body := "hi" })
    "connection refused" 1 rfl (by decide)
    (fun j hj => by
      have hj0 : j = 0 := by omega
      subst hj0
      exact ⟨rfl, rfl⟩)
    (Or.inl rfl)
